import Mathlib

/-!
# In-memory rate limiter — verification development

Shallow embedding of the ResumeAI rate limiter (`lib/rate-limit.ts`):
the window-state store, the admission decision `checkRateLimit`, the
pre-configured tier registry `RATE_LIMITS`, the identity-key helpers
`getClientIP` / `getRateLimitKey`, and the periodic expiry sweep.

Modelling conventions:
* JavaScript epoch-millisecond instants (`Date.now()` values, stored
  timestamps, `blocked_until`) are `Int`; all arithmetic on them in the
  source is exact integer arithmetic well below 2^53, so `Int` is exact.
* The tier's `max` is a `Nat` (a request count) and `windowSec` a `Nat`
  (a duration in seconds); the source only ever supplies positive
  integer literals for both.
* The mutable `Map` store is a function `String → Option RateLimitEntry`;
  an in-place mutation of the entry at `key` is a functional update.
* `NextResponse.json(...)` on the deny paths is modelled by the record
  `DenyResponse` carrying the body fields and the four headers.  The
  `X-RateLimit-Reset` header is produced in the source by
  `new Date(ms).toISOString()`; the model carries the epoch-millisecond
  argument `resetEpochMs` of that rendering (the rendering itself is an
  injective library function of this instant).
* JavaScript truthiness tests (`if (entry.blocked_until && ...)`,
  `userId ? ... : ...`, `if (forwarded)`, `|| "unknown"`,
  `!entry.blocked_until`) are modelled exactly: `0` is falsy for the
  optional instant, `""` is falsy for strings.
-/

/-- `interface RateLimitEntry`: per-(tier,identity) window record. -/
structure RateLimitEntry where
  timestamps : List Int
  blocked_until : Option Int
deriving Repr, DecidableEq

/-- `interface RateLimitConfig`.  The source field `prefix` is named
`prefixStr` here (`prefix` is a Lean keyword). -/
structure RateLimitConfig where
  max : Nat
  windowSec : Nat
  prefixStr : String
deriving Repr, DecidableEq

/-- The window state store, `const store = new Map<string, RateLimitEntry>()`. -/
def Store : Type := String → Option RateLimitEntry

/-- `store.set(key, entry)`. -/
def setStore (s : Store) (key : String) (e : RateLimitEntry) : Store :=
  fun k => if k = key then some e else s k

/-- The store with no entries. -/
def emptyStore : Store := fun _ => none

/-- The 429 deny value built by `NextResponse.json` on either deny path:
body fields `error` and `retryAfter`, headers `Retry-After`,
`X-RateLimit-Limit`, `X-RateLimit-Remaining`, and the epoch-millisecond
instant rendered into `X-RateLimit-Reset` by `toISOString`. -/
structure DenyResponse where
  status : Nat
  errorMsg : String
  retryAfter : Int
  retryAfterHeader : String
  limitHeader : String
  remainingHeader : String
  resetEpochMs : Int
deriving Repr, DecidableEq

/-- `key = config.prefix + ":" + identifier`. -/
def rlKey (config : RateLimitConfig) (identifier : String) : String :=
  config.prefixStr ++ ":" ++ identifier

/-- The guard `entry.blocked_until && now < entry.blocked_until`
(`0` is falsy, so a zero `blocked_until` never blocks). -/
def isBlockedAt (e : RateLimitEntry) (now : Int) : Bool :=
  match e.blocked_until with
  | none => false
  | some b => b != 0 && now < b

/-- The deny built while `blocked_until` is in the future:
`retryAfter = Math.ceil((blocked_until - now) / 1000)`, and
`X-RateLimit-Reset` renders `blocked_until` itself. -/
def blockedResponse (config : RateLimitConfig) (b now : Int) : DenyResponse :=
  let retryAfter : Int := (b - now + 999) / 1000
  { status := 429
    errorMsg := "Too many requests. Please slow down."
    retryAfter := retryAfter
    retryAfterHeader := toString retryAfter
    limitHeader := toString config.max
    remainingHeader := "0"
    resetEpochMs := b }

/-- The deny built when the pruned window is full:
`retryAfter = config.windowSec`, and `X-RateLimit-Reset` renders
`now + windowMs`. -/
def limitResponse (config : RateLimitConfig) (now : Int) : DenyResponse :=
  let windowMs : Int := (config.windowSec : Int) * 1000
  let retryAfter : Int := (config.windowSec : Int)
  { status := 429
    errorMsg := "Too many requests. Please slow down."
    retryAfter := retryAfter
    retryAfterHeader := toString retryAfter
    limitHeader := toString config.max
    remainingHeader := "0"
    resetEpochMs := now + windowMs }

/-- The body of `checkRateLimit` acting on the single entry for `key`:
the blocked fast path, then the sliding-window prune
`entry.timestamps.filter((t) => now - t < windowMs)`, the
`length >= config.max` check setting `blocked_until = now + windowMs`,
else the `push(now)` recording the allowed request. -/
def stepEntry (config : RateLimitConfig) (now : Int) (e : RateLimitEntry) :
    Option DenyResponse × RateLimitEntry :=
  if isBlockedAt e now then
    (some (blockedResponse config (e.blocked_until.getD 0) now), e)
  else
    let windowMs : Int := (config.windowSec : Int) * 1000
    let pruned := e.timestamps.filter (fun t => decide (now - t < windowMs))
    if config.max ≤ pruned.length then
      (some (limitResponse config now),
       { timestamps := pruned, blocked_until := some (now + windowMs) })
    else
      (none, { timestamps := pruned ++ [now], blocked_until := e.blocked_until })

/-- `export function checkRateLimit(identifier, config)` at instant `now`:
looks up (or lazily creates) the entry for `config.prefix + ":" + identifier`,
runs the decision body on it, and leaves the resulting entry in the store.
`none` is the source's `null` (allowed); `some d` is the 429 response. -/
def checkRateLimit (identifier : String) (config : RateLimitConfig) (now : Int)
    (store : Store) : Option DenyResponse × Store :=
  let key := rlKey config identifier
  let entry := (store key).getD { timestamps := [], blocked_until := none }
  let r := stepEntry config now entry
  (r.1, setStore store key r.2)

/-- `RATE_LIMITS`: the pre-configured tier registry. -/
def RATE_LIMITS_AI : RateLimitConfig := { max := 5, windowSec := 60, prefixStr := "ai" }

/-- `RATE_LIMITS.UPLOAD`. -/
def RATE_LIMITS_UPLOAD : RateLimitConfig := { max := 10, windowSec := 60, prefixStr := "upload" }

/-- `RATE_LIMITS.CRUD`. -/
def RATE_LIMITS_CRUD : RateLimitConfig := { max := 30, windowSec := 60, prefixStr := "crud" }

/-- `RATE_LIMITS.READ`. -/
def RATE_LIMITS_READ : RateLimitConfig := { max := 60, windowSec := 60, prefixStr := "read" }

/-- `RATE_LIMITS.ADMIN`. -/
def RATE_LIMITS_ADMIN : RateLimitConfig := { max := 20, windowSec := 60, prefixStr := "admin" }

/-- `RATE_LIMITS.WEBHOOK`. -/
def RATE_LIMITS_WEBHOOK : RateLimitConfig := { max := 100, windowSec := 60, prefixStr := "webhook" }

/-- The request headers `getClientIP` / `getRateLimitKey` read.  A header
that `request.headers.get` would return as `null` is `none`. -/
structure HttpRequest where
  xForwardedFor : Option String
  xRealIp : Option String
deriving Repr, DecidableEq

/-- `export function getClientIP(request)`: first comma-separated entry of
`x-forwarded-for` (trimmed) when that header is truthy, else a truthy
`x-real-ip`, else `"unknown"`.  (`null` and `""` are both falsy, so they
are collapsed via `getD ""`.) -/
def getClientIP (request : HttpRequest) : String :=
  let forwarded := request.xForwardedFor.getD ""
  if forwarded ≠ "" then
    ((forwarded.splitOn ",").headD "").trim
  else
    let real := request.xRealIp.getD ""
    if real ≠ "" then real else "unknown"

/-- `export function getRateLimitKey(request, userId)`:
`userId ? userId + ":" + ip : ip`, with `undefined`, `null` and `""`
all falsy. -/
def getRateLimitKey (request : HttpRequest) (userId : Option String) : String :=
  let ip := getClientIP request
  match userId with
  | some u => if u ≠ "" then u ++ ":" ++ ip else ip
  | none => ip

/-- The sweep's per-entry removal test: `recent` keeps timestamps within the
fixed 300 000 ms retention, and the entry goes when `recent` is empty and
`(!entry.blocked_until || now > entry.blocked_until)` holds. -/
def sweepRemovable (e : RateLimitEntry) (now : Int) : Bool :=
  let recent := e.timestamps.filter (fun t => decide (now - t < 300000))
  recent.isEmpty &&
    (match e.blocked_until with
     | none => true
     | some b => b == 0 || decide (now > b))

/-- One run of the `setInterval` expiry sweep: every removable entry is
deleted, every other entry kept as is. -/
def runSweep (store : Store) (now : Int) : Store :=
  fun key =>
    match store key with
    | none => none
    | some e => if sweepRemovable e now then none else some e

/-- A sequence of `checkRateLimit` calls for one identity at the given
instants, threading the store; returns the decisions in order and the
final store. -/
def runCalls (identifier : String) (config : RateLimitConfig) (times : List Int)
    (store : Store) : List (Option DenyResponse) × Store :=
  match times with
  | [] => ([], store)
  | t :: ts =>
    let r := checkRateLimit identifier config t store
    let rest := runCalls identifier config ts r.2
    (r.1 :: rest.1, rest.2)

/-- A sequence of decision-body runs on a single entry (no store),
used to compare two entries' observable behaviour. -/
def runEntry (config : RateLimitConfig) (times : List Int) (e : RateLimitEntry) :
    List (Option DenyResponse) × RateLimitEntry :=
  match times with
  | [] => ([], e)
  | t :: ts =>
    let r := stepEntry config t e
    let rest := runEntry config ts r.2
    (r.1 :: rest.1, rest.2)

/-- An optional block instant that can never block any call at an instant
`≥ n`: unset, zero (falsy), or not in the future of `n`. -/
def neverBlocks (n : Int) : Option Int → Prop
  | none => True
  | some b => b = 0 ∨ b ≤ n

/-- Entries indistinguishable by every call sequence at instants `≥ n`:
equal timestamps, and block instants either equal or both dead. -/
def entryEquiv (n : Int) (e1 e2 : RateLimitEntry) : Prop :=
  e1.timestamps = e2.timestamps ∧
    (e1.blocked_until = e2.blocked_until ∨
      (neverBlocks n e1.blocked_until ∧ neverBlocks n e2.blocked_until))

/-! ## Basic lemmas about the store and the decision body -/

theorem setStore_same (s : Store) (key : String) (e : RateLimitEntry) :
    setStore s key e key = some e := by
  simp [setStore]

theorem setStore_other (s : Store) (key k : String) (e : RateLimitEntry)
    (h : k ≠ key) : setStore s key e k = s k := by
  simp [setStore, h]

/-- The decision returned by `checkRateLimit` is the decision body's, run on
the entry found (or lazily created) at the derived key. -/
theorem checkRateLimit_fst (identifier : String) (config : RateLimitConfig)
    (now : Int) (store : Store) :
    (checkRateLimit identifier config now store).1 =
      (stepEntry config now
        ((store (rlKey config identifier)).getD
          { timestamps := [], blocked_until := none })).1 := rfl

/-- The store after `checkRateLimit` holds the decision body's resulting
entry at the derived key. -/
theorem checkRateLimit_snd_same (identifier : String) (config : RateLimitConfig)
    (now : Int) (store : Store) :
    (checkRateLimit identifier config now store).2 (rlKey config identifier) =
      some (stepEntry config now
        ((store (rlKey config identifier)).getD
          { timestamps := [], blocked_until := none })).2 := by
  simp [checkRateLimit, setStore_same]

theorem checkRateLimit_snd_other (identifier : String) (config : RateLimitConfig)
    (now : Int) (store : Store) (k : String) (h : k ≠ rlKey config identifier) :
    (checkRateLimit identifier config now store).2 k = store k := by
  simp [checkRateLimit, setStore, h]

/-- The blocked fast path: an entry whose truthy `blocked_until` lies in the
future is denied and returned unchanged. -/
theorem stepEntry_blocked (config : RateLimitConfig) (now b : Int)
    (e : RateLimitEntry) (hb : e.blocked_until = some b) (hbne : b ≠ 0)
    (hnow : now < b) :
    stepEntry config now e = (some (blockedResponse config b now), e) := by
  simp [stepEntry, isBlockedAt, hb, hbne, hnow]

theorem isBlockedAt_eq_false (e : RateLimitEntry) (now : Int)
    (h : ∀ b, e.blocked_until = some b → b = 0 ∨ b ≤ now) :
    isBlockedAt e now = false := by
  unfold isBlockedAt
  cases hb : e.blocked_until with
  | none => rfl
  | some b =>
    rcases h b hb with h0 | hle
    · simp [h0]
    · simp [Bool.and_eq_false_iff]
      omega

/-- An unblocked entry whose pruned window is below the limit: allowed, the
instant recorded, `blocked_until` untouched. -/
theorem stepEntry_allow (config : RateLimitConfig) (now : Int)
    (e : RateLimitEntry) (hnb : isBlockedAt e now = false)
    (hlen : (e.timestamps.filter
        (fun t => decide (now - t < (config.windowSec : Int) * 1000))).length
      < config.max) :
    stepEntry config now e =
      (none,
       { timestamps := e.timestamps.filter
           (fun t => decide (now - t < (config.windowSec : Int) * 1000)) ++ [now]
         blocked_until := e.blocked_until }) := by
  simp only [stepEntry, hnb, Bool.false_eq_true, if_false]
  rw [if_neg (by omega)]

/-- An unblocked entry whose pruned window is full: denied, a full fresh
block window installed. -/
theorem stepEntry_deny (config : RateLimitConfig) (now : Int)
    (e : RateLimitEntry) (hnb : isBlockedAt e now = false)
    (hlen : config.max ≤ (e.timestamps.filter
        (fun t => decide (now - t < (config.windowSec : Int) * 1000))).length) :
    stepEntry config now e =
      (some (limitResponse config now),
       { timestamps := e.timestamps.filter
           (fun t => decide (now - t < (config.windowSec : Int) * 1000))
         blocked_until := some (now + (config.windowSec : Int) * 1000) }) := by
  simp only [stepEntry, hnb, Bool.false_eq_true, if_false]
  rw [if_pos hlen]

/-- `Math.ceil(d / 1000)` for a positive integer `d`, as computed by
`(d + 999) / 1000`, is the least integer `r` with `d ≤ r * 1000`. -/
theorem ceil_div_1000_spec (d : Int) (hd : 1 ≤ d) :
    (((d + 999) / 1000) - 1) * 1000 < d ∧ d ≤ ((d + 999) / 1000) * 1000 := by
  constructor <;> omega

/-- Keys of distinct identities under one tier never collide. -/
theorem rlKey_inj_identifier (config : RateLimitConfig) (i1 i2 : String)
    (h : rlKey config i1 = rlKey config i2) : i1 = i2 := by
  have hd : (config.prefixStr.data ++ ":".data) ++ i1.data
      = (config.prefixStr.data ++ ":".data) ++ i2.data := congrArg String.data h
  exact String.ext (List.append_cancel_left hd)

/-- Keys under tiers with distinct prefixes never collide for one identity. -/
theorem rlKey_inj_config (c1 c2 : RateLimitConfig) (i : String)
    (h : rlKey c1 i = rlKey c2 i) : c1.prefixStr = c2.prefixStr := by
  have hd : (c1.prefixStr.data ++ ":".data) ++ i.data
      = (c2.prefixStr.data ++ ":".data) ++ i.data := congrArg String.data h
  exact String.ext (List.append_cancel_right (List.append_cancel_right hd))

/-! ## A burst of identical-instant calls (claim C1) -/

/-- Running `k` further calls at instant `t0` on an entry already holding `j`
copies of `t0` (and no block), with `j + k` within the limit: every call is
allowed and the entry ends with `j + k` copies of `t0`.  Keys other than the
derived one are untouched. -/
theorem runCalls_burst (identifier : String) (config : RateLimitConfig)
    (t0 : Int) (hwin : 0 < config.windowSec) :
    ∀ (k j : Nat) (store : Store),
      (store (rlKey config identifier)).getD { timestamps := [], blocked_until := none }
        = { timestamps := List.replicate j t0, blocked_until := none } →
      j + k ≤ config.max →
      (runCalls identifier config (List.replicate k t0) store).1
          = List.replicate k none ∧
      ((runCalls identifier config (List.replicate k t0) store).2
          (rlKey config identifier)).getD { timestamps := [], blocked_until := none }
        = { timestamps := List.replicate (j + k) t0, blocked_until := none } := by
  intro k
  induction k with
  | zero =>
    intro j store hentry _
    simpa [runCalls] using hentry
  | succ k ih =>
    intro j store hentry hle
    have hwms : (0 : Int) < (config.windowSec : Int) * 1000 := by
      have : (1 : Int) ≤ (config.windowSec : Int) := by exact_mod_cast hwin
      nlinarith
    have hstep : stepEntry config t0
        ((store (rlKey config identifier)).getD { timestamps := [], blocked_until := none })
        = (none,
           { timestamps := List.replicate (j + 1) t0, blocked_until := none }) := by
      rw [hentry]
      rw [stepEntry_allow config t0 _ (by simp [isBlockedAt])
        (by simp [List.filter_replicate, hwms]; omega)]
      simp [List.filter_replicate, hwms, List.replicate_succ']
    have hfst : (checkRateLimit identifier config t0 store).1 = none := by
      rw [checkRateLimit_fst, hstep]
    have hsnd : ((checkRateLimit identifier config t0 store).2
        (rlKey config identifier)).getD { timestamps := [], blocked_until := none }
        = { timestamps := List.replicate (j + 1) t0, blocked_until := none } := by
      rw [checkRateLimit_snd_same, hstep]
      rfl
    have hrest := ih (j + 1) (checkRateLimit identifier config t0 store).2 hsnd (by omega)
    refine ⟨?_, ?_⟩
    · simp only [List.replicate_succ, runCalls, hfst, hrest.1]
    · simpa [List.replicate_succ, runCalls, Nat.add_assoc, Nat.add_comm 1 k]
        using hrest.2

/-- C1: from a fresh key, a burst of calls at one instant `t0` under a tier
with positive `max` and `windowSec` allows exactly the first `max` calls; the
`(max + 1)`-th call at `t0` is denied with `retryAfter = windowSec` and
installs `blocked_until = t0 + windowSec * 1000`, a full fresh window. -/
theorem checkRateLimit_burst_C1 (identifier : String) (config : RateLimitConfig)
    (t0 : Int) (store : Store) (hmax : 0 < config.max)
    (hwin : 0 < config.windowSec)
    (hfresh : store (rlKey config identifier) = none) :
    (runCalls identifier config (List.replicate config.max t0) store).1
        = List.replicate config.max none ∧
    (checkRateLimit identifier config t0
        (runCalls identifier config (List.replicate config.max t0) store).2).1
      = some (limitResponse config t0) ∧
    (limitResponse config t0).retryAfter = (config.windowSec : Int) ∧
    (checkRateLimit identifier config t0
        (runCalls identifier config (List.replicate config.max t0) store).2).2
        (rlKey config identifier)
      = some { timestamps := List.replicate config.max t0
               blocked_until := some (t0 + (config.windowSec : Int) * 1000) } := by
  have hwms : (0 : Int) < (config.windowSec : Int) * 1000 := by
    have : (1 : Int) ≤ (config.windowSec : Int) := by exact_mod_cast hwin
    nlinarith
  have hburst := runCalls_burst identifier config t0 hwin config.max 0 store
    (by simp [hfresh]) (by omega)
  refine ⟨hburst.1, ?_, rfl, ?_⟩
  · rw [checkRateLimit_fst, hburst.2,
      stepEntry_deny config t0 _ (by simp [isBlockedAt])
        (by simp [List.filter_replicate, hwms])]
  · rw [checkRateLimit_snd_same, hburst.2,
      stepEntry_deny config t0 _ (by simp [isBlockedAt])
        (by simp [List.filter_replicate, hwms])]
    simp [List.filter_replicate, hwms]

/-- C1 at a concrete input: the AI tier, identity `"u1"`, a burst at `t0 = 0`
from the empty store. -/
theorem checkRateLimit_burst_C1_witness :
    (runCalls "u1" RATE_LIMITS_AI (List.replicate RATE_LIMITS_AI.max (0 : Int))
        emptyStore).1 = List.replicate RATE_LIMITS_AI.max none :=
  (checkRateLimit_burst_C1 "u1" RATE_LIMITS_AI 0 emptyStore (by decide) (by decide)
    rfl).1

/-! ## The blocked fast path leaves everything unchanged (claim C2) -/

/-- A call that hits the blocked fast path leaves the whole store pointwise
unchanged. -/
theorem checkRateLimit_blocked_store (identifier : String)
    (config : RateLimitConfig) (now b : Int) (store : Store) (e : RateLimitEntry)
    (hentry : store (rlKey config identifier) = some e)
    (hb : e.blocked_until = some b) (hbne : b ≠ 0) (hnow : now < b) :
    ∀ k, (checkRateLimit identifier config now store).2 k = store k := by
  intro k
  by_cases hk : k = rlKey config identifier
  · subst hk
    rw [checkRateLimit_snd_same, hentry]
    simp only [Option.getD_some]
    rw [stepEntry_blocked config now b e hb hbne hnow]
  · exact checkRateLimit_snd_other identifier config now store k hk

/-- While the blocked fast path applies at every call instant, any number of
calls leaves the whole store pointwise unchanged. -/
theorem runCalls_blocked_frame (identifier : String) (config : RateLimitConfig)
    (b : Int) (e : RateLimitEntry) (hb : e.blocked_until = some b)
    (hbne : b ≠ 0) :
    ∀ (ts : List Int) (store : Store),
      store (rlKey config identifier) = some e →
      (∀ t ∈ ts, t < b) →
      ∀ k, (runCalls identifier config ts store).2 k = store k := by
  intro ts
  induction ts with
  | nil => intro store _ _ k; rfl
  | cons t ts ih =>
    intro store hentry hts k
    have hstep := checkRateLimit_blocked_store identifier config t b store e
      hentry hb hbne (hts t (by simp))
    have hkey : (checkRateLimit identifier config t store).2
        (rlKey config identifier) = some e := by
      rw [hstep]; exact hentry
    show (runCalls identifier config ts
        (checkRateLimit identifier config t store).2).2 k = store k
    rw [ih (checkRateLimit identifier config t store).2 hkey
      (fun u hu => hts u (by simp [hu])) k]
    exact hstep k

/-- C2: while `blocked_until` is set and still in the future, every call is
denied with `retryAfter = ceil((blocked_until - now) / 1000)` (the least
integer `r` with `blocked_until - now ≤ 1000 r`), and the call — and any
number of further calls during the block — leaves the store, hence the
record's `timestamps` and `blocked_until`, completely unchanged. -/
theorem checkRateLimit_blocked_C2 (identifier : String)
    (config : RateLimitConfig) (now b : Int) (store : Store) (e : RateLimitEntry)
    (hentry : store (rlKey config identifier) = some e)
    (hb : e.blocked_until = some b) (hbne : b ≠ 0) (hnow : now < b) :
    (checkRateLimit identifier config now store).1
        = some (blockedResponse config b now) ∧
    ((blockedResponse config b now).retryAfter - 1) * 1000 < b - now ∧
    b - now ≤ (blockedResponse config b now).retryAfter * 1000 ∧
    (∀ k, (checkRateLimit identifier config now store).2 k = store k) ∧
    (∀ ts : List Int, (∀ t ∈ ts, t < b) →
      ∀ k, (runCalls identifier config ts store).2 k = store k) := by
  have hceil := ceil_div_1000_spec (b - now) (by omega)
  refine ⟨?_, hceil.1, hceil.2, ?_, ?_⟩
  · rw [checkRateLimit_fst, hentry]
    simp only [Option.getD_some]
    rw [stepEntry_blocked config now b e hb hbne hnow]
  · exact checkRateLimit_blocked_store identifier config now b store e
      hentry hb hbne hnow
  · exact fun ts hts =>
      runCalls_blocked_frame identifier config b e hb hbne ts store hentry hts

/-- C2 at a concrete input: the AI tier, an entry blocked until instant
65000, a call at instant 6000. -/
theorem checkRateLimit_blocked_C2_witness :
    (checkRateLimit "u1" RATE_LIMITS_AI 6000
        (setStore emptyStore (rlKey RATE_LIMITS_AI "u1")
          { timestamps := [0, 1000, 2000, 3000, 4000]
            blocked_until := some 65000 })).1
      = some (blockedResponse RATE_LIMITS_AI 65000 6000) :=
  (checkRateLimit_blocked_C2 "u1" RATE_LIMITS_AI 6000 65000
    (setStore emptyStore (rlKey RATE_LIMITS_AI "u1")
      { timestamps := [0, 1000, 2000, 3000, 4000], blocked_until := some 65000 })
    { timestamps := [0, 1000, 2000, 3000, 4000], blocked_until := some 65000 }
    (by decide) rfl (by decide) (by decide)).1

/-! ## Deny persistence and recovery after the block (claim C3) -/

/-- C3: after a deny installed `blocked_until = b`, every call before `b` is
denied; the first call at or after `b` is allowed, with every timestamp
recorded before the deny pruned away, so the count restarts at `[now]`.
Concretely (AI tier, `max = 5`, 60 s window): requests at seconds
0,1,2,3,4 are allowed, the request at second 5 is denied with
`retryAfter = 60`, and the request at second 65 is allowed. -/
theorem checkRateLimit_after_deny_C3 (identifier : String)
    (config : RateLimitConfig) (b : Int) (store : Store) (e : RateLimitEntry)
    (hentry : store (rlKey config identifier) = some e)
    (hb : e.blocked_until = some b) (hbne : b ≠ 0) :
    (∀ now : Int, now < b →
      (checkRateLimit identifier config now store).1
        = some (blockedResponse config b now)) ∧
    (∀ now : Int, b ≤ now →
      (∀ t ∈ e.timestamps, t + (config.windowSec : Int) * 1000 ≤ b) →
      0 < config.max →
      (checkRateLimit identifier config now store).1 = none ∧
      (checkRateLimit identifier config now store).2 (rlKey config identifier)
        = some { timestamps := [now], blocked_until := some b }) ∧
    ((runCalls "u1" RATE_LIMITS_AI [0, 1000, 2000, 3000, 4000, 5000, 65000]
        emptyStore).1
      = [none, none, none, none, none,
         some (limitResponse RATE_LIMITS_AI 5000), none] ∧
     (limitResponse RATE_LIMITS_AI 5000).retryAfter = 60) := by
  refine ⟨?_, ?_, by decide, by decide⟩
  · intro now hnow
    rw [checkRateLimit_fst, hentry]
    simp only [Option.getD_some]
    rw [stepEntry_blocked config now b e hb hbne hnow]
  · intro now hnow hold hmax
    have hnb : isBlockedAt e now = false :=
      isBlockedAt_eq_false e now (by
        intro b' hb'
        rw [hb] at hb'
        injection hb' with hbb
        exact Or.inr (by omega))
    have hfilter : e.timestamps.filter
        (fun t => decide (now - t < (config.windowSec : Int) * 1000)) = [] := by
      refine List.filter_eq_nil_iff.mpr ?_
      intro t ht
      have := hold t ht
      simp only [decide_eq_true_eq]
      omega
    have hstep := stepEntry_allow config now e hnb (by rw [hfilter]; simpa using hmax)
    rw [hfilter] at hstep
    constructor
    · rw [checkRateLimit_fst, hentry]
      simp only [Option.getD_some]
      rw [hstep]
    · rw [checkRateLimit_snd_same, hentry]
      simp only [Option.getD_some]
      rw [hstep, hb]
      rfl

/-- C3 at a concrete input: the concrete five-allow / one-deny / recover
scenario, read off from the theorem applied to a blocked store. -/
theorem checkRateLimit_after_deny_C3_witness :
    (runCalls "u1" RATE_LIMITS_AI [0, 1000, 2000, 3000, 4000, 5000, 65000]
        emptyStore).1
      = [none, none, none, none, none,
         some (limitResponse RATE_LIMITS_AI 5000), none] :=
  (checkRateLimit_after_deny_C3 "u1" RATE_LIMITS_AI 65000
    (setStore emptyStore (rlKey RATE_LIMITS_AI "u1")
      { timestamps := [0], blocked_until := some 65000 })
    { timestamps := [0], blocked_until := some 65000 }
    (by decide) rfl (by decide)).2.2.1

/-! ## Pruning invariants (claim C4) -/

/-- C4: after any call that reaches the pruning step (the blocked fast path
does not apply), every timestamp left in the record is strictly younger than
the window; a timestamp aged exactly one window is gone; after an allow the
record holds at most `max` timestamps; and a request whose entire window has
aged out (every stored timestamp at least `windowSec` old) is allowed. -/
theorem checkRateLimit_pruning_C4 (identifier : String)
    (config : RateLimitConfig) (now : Int) (store : Store)
    (hwin : 0 < config.windowSec)
    (hnb : isBlockedAt
      ((store (rlKey config identifier)).getD { timestamps := [], blocked_until := none })
      now = false) :
    ∃ e', (checkRateLimit identifier config now store).2 (rlKey config identifier)
        = some e' ∧
      (∀ t ∈ e'.timestamps, now - t < (config.windowSec : Int) * 1000) ∧
      (∀ t : Int, now - t = (config.windowSec : Int) * 1000 → t ∉ e'.timestamps) ∧
      ((checkRateLimit identifier config now store).1 = none →
        e'.timestamps.length ≤ config.max) ∧
      ((∀ t ∈ ((store (rlKey config identifier)).getD
            { timestamps := [], blocked_until := none }).timestamps,
          (config.windowSec : Int) * 1000 ≤ now - t) →
        0 < config.max →
        (checkRateLimit identifier config now store).1 = none) := by
  set e := (store (rlKey config identifier)).getD
    { timestamps := [], blocked_until := none } with he
  have hwms : (0 : Int) < (config.windowSec : Int) * 1000 := by
    have : (1 : Int) ≤ (config.windowSec : Int) := by exact_mod_cast hwin
    nlinarith
  set pruned := e.timestamps.filter
    (fun t => decide (now - t < (config.windowSec : Int) * 1000)) with hp
  have hmem : ∀ t ∈ pruned, now - t < (config.windowSec : Int) * 1000 := by
    intro t ht
    have := List.of_mem_filter ht
    simpa using this
  have hallow : (∀ t ∈ e.timestamps, (config.windowSec : Int) * 1000 ≤ now - t) →
      0 < config.max → (checkRateLimit identifier config now store).1 = none := by
    intro hold hmax
    have hfilter : pruned = [] := by
      refine List.filter_eq_nil_iff.mpr ?_
      intro t ht
      have := hold t ht
      simp only [decide_eq_true_eq]
      omega
    rw [checkRateLimit_fst, ← he,
      stepEntry_allow config now e hnb (by rw [← hp, hfilter]; simpa using hmax)]
  by_cases hlen : config.max ≤ pruned.length
  · have hstep := stepEntry_deny config now e hnb hlen
    refine ⟨{ timestamps := pruned
              blocked_until := some (now + (config.windowSec : Int) * 1000) },
      ?_, hmem, ?_, ?_, hallow⟩
    · rw [checkRateLimit_snd_same, ← he, hstep]
    · intro t ht hmemt
      exact absurd (hmem t hmemt) (by omega)
    · intro hnone
      rw [checkRateLimit_fst, ← he, hstep] at hnone
      exact absurd hnone (by simp)
  · have hstep := stepEntry_allow config now e hnb (by rw [← hp]; omega)
    refine ⟨{ timestamps := pruned ++ [now], blocked_until := e.blocked_until },
      ?_, ?_, ?_, ?_, hallow⟩
    · rw [checkRateLimit_snd_same, ← he, hstep]
    · intro t ht
      rcases List.mem_append.mp ht with h | h
      · exact hmem t h
      · have : t = now := by simpa using h
        omega
    · intro t ht hmemt
      rcases List.mem_append.mp hmemt with h | h
      · exact absurd (hmem t h) (by omega)
      · have : t = now := by simpa using h
        omega
    · intro _
      simp only [List.length_append, List.length_singleton]
      omega

/-- C4 at a concrete input: the AI tier at instant 60000, an entry holding
one timestamp of age exactly one window. -/
theorem checkRateLimit_pruning_C4_witness :
    ∃ e', (checkRateLimit "u1" RATE_LIMITS_AI 60000
        (setStore emptyStore (rlKey RATE_LIMITS_AI "u1")
          { timestamps := [0], blocked_until := none })).2
        (rlKey RATE_LIMITS_AI "u1") = some e' ∧
      (∀ t ∈ e'.timestamps, 60000 - t < (60 : Int) * 1000) ∧
      (∀ t : Int, 60000 - t = (60 : Int) * 1000 → t ∉ e'.timestamps) ∧
      ((checkRateLimit "u1" RATE_LIMITS_AI 60000
          (setStore emptyStore (rlKey RATE_LIMITS_AI "u1")
            { timestamps := [0], blocked_until := none })).1 = none →
        e'.timestamps.length ≤ RATE_LIMITS_AI.max) ∧
      ((∀ t ∈ ((setStore emptyStore (rlKey RATE_LIMITS_AI "u1")
            { timestamps := [0], blocked_until := none }
            (rlKey RATE_LIMITS_AI "u1")).getD
            { timestamps := [], blocked_until := none }).timestamps,
          (60 : Int) * 1000 ≤ 60000 - t) →
        0 < RATE_LIMITS_AI.max →
        (checkRateLimit "u1" RATE_LIMITS_AI 60000
          (setStore emptyStore (rlKey RATE_LIMITS_AI "u1")
            { timestamps := [0], blocked_until := none })).1 = none) :=
  checkRateLimit_pruning_C4 "u1" RATE_LIMITS_AI 60000
    (setStore emptyStore (rlKey RATE_LIMITS_AI "u1")
      { timestamps := [0], blocked_until := none }) (by decide) (by decide)

/-! ## Per-key isolation (claim C5) -/

/-- The decision depends only on the store's entry at the derived key. -/
theorem checkRateLimit_congr (identifier : String) (config : RateLimitConfig)
    (now : Int) (s1 s2 : Store)
    (h : s1 (rlKey config identifier) = s2 (rlKey config identifier)) :
    (checkRateLimit identifier config now s1).1
      = (checkRateLimit identifier config now s2).1 := by
  rw [checkRateLimit_fst, checkRateLimit_fst, h]

/-- C5: a call touches only the entry at its derived key
`config.prefix ++ ":" ++ identifier`: every other key's entry is unchanged,
and the decision later returned for any other key is unaffected.  Distinct
prefixes (distinct tiers) and distinct identities always derive distinct
keys, so (tier, identity) pairs differing in either component never
interact. -/
theorem checkRateLimit_frame_C5 (identifier : String) (config : RateLimitConfig)
    (now : Int) (store : Store) :
    (∀ k, k ≠ rlKey config identifier →
      (checkRateLimit identifier config now store).2 k = store k) ∧
    (∀ (identifier2 : String) (config2 : RateLimitConfig) (now2 : Int),
      rlKey config2 identifier2 ≠ rlKey config identifier →
      (checkRateLimit identifier2 config2 now2
          (checkRateLimit identifier config now store).2).1
        = (checkRateLimit identifier2 config2 now2 store).1) ∧
    (∀ (c1 c2 : RateLimitConfig) (i : String), c1.prefixStr ≠ c2.prefixStr →
      rlKey c1 i ≠ rlKey c2 i) ∧
    (∀ (c : RateLimitConfig) (i1 i2 : String), i1 ≠ i2 →
      rlKey c i1 ≠ rlKey c i2) := by
  refine ⟨?_, ?_, ?_, ?_⟩
  · exact fun k hk => checkRateLimit_snd_other identifier config now store k hk
  · intro identifier2 config2 now2 hne
    exact checkRateLimit_congr identifier2 config2 now2 _ store
      (checkRateLimit_snd_other identifier config now store _ hne)
  · intro c1 c2 i hne hkey
    exact hne (rlKey_inj_config c1 c2 i hkey)
  · intro c i1 i2 hne hkey
    exact hne (rlKey_inj_identifier c i1 i2 hkey)

/-! ## Exactly two outcomes (claim C6) -/

/-- C6: every call either allows (`none`, the source's `null`) or returns a
deny whose status is 429, whose body message is the fixed string, whose
`Retry-After` header is the integer `retryAfter` rendered as a string, whose
limit header is the tier's `max`, whose remaining header is `"0"`, and whose
reset header renders exactly the instant recorded as the entry's
`blocked_until` — the instant from which the identity is no longer blocked. -/
theorem checkRateLimit_outcomes_C6 (identifier : String)
    (config : RateLimitConfig) (now : Int) (store : Store) :
    (checkRateLimit identifier config now store).1 = none ∨
    (∃ d, (checkRateLimit identifier config now store).1 = some d ∧
      d.status = 429 ∧
      d.errorMsg = "Too many requests. Please slow down." ∧
      d.retryAfterHeader = toString d.retryAfter ∧
      d.limitHeader = toString config.max ∧
      d.remainingHeader = "0" ∧
      ∃ e', (checkRateLimit identifier config now store).2 (rlKey config identifier)
          = some e' ∧ e'.blocked_until = some d.resetEpochMs) := by
  set e := (store (rlKey config identifier)).getD
    { timestamps := [], blocked_until := none } with he
  by_cases hblk : isBlockedAt e now = true
  · have hbu : ∃ b, e.blocked_until = some b ∧ b ≠ 0 ∧ now < b := by
      unfold isBlockedAt at hblk
      cases hbu : e.blocked_until with
      | none => rw [hbu] at hblk; simp at hblk
      | some b =>
        rw [hbu] at hblk
        simp only [Bool.and_eq_true, bne_iff_ne, decide_eq_true_eq] at hblk
        exact ⟨b, rfl, hblk.1, hblk.2⟩
    obtain ⟨b, hbu, hbne, hnow⟩ := hbu
    have hstep := stepEntry_blocked config now b e hbu hbne hnow
    right
    refine ⟨blockedResponse config b now, ?_, rfl, rfl, rfl, rfl, rfl, e, ?_, hbu⟩
    · rw [checkRateLimit_fst, ← he, hstep]
    · rw [checkRateLimit_snd_same, ← he, hstep]
  · have hnb : isBlockedAt e now = false := by simpa using hblk
    by_cases hlen : config.max ≤ (e.timestamps.filter
        (fun t => decide (now - t < (config.windowSec : Int) * 1000))).length
    · have hstep := stepEntry_deny config now e hnb hlen
      right
      refine ⟨limitResponse config now, ?_, rfl, rfl, rfl, rfl, rfl,
        { timestamps := e.timestamps.filter
            (fun t => decide (now - t < (config.windowSec : Int) * 1000))
          blocked_until := some (now + (config.windowSec : Int) * 1000) },
        ?_, rfl⟩
      · rw [checkRateLimit_fst, ← he, hstep]
      · rw [checkRateLimit_snd_same, ← he, hstep]
    · left
      rw [checkRateLimit_fst, ← he, stepEntry_allow config now e hnb (by omega)]

/-! ## Identity-key derivation (claims C7 and C10) -/

/-- C7: the derived key is `userId ++ ":" ++ ip` when a non-empty (truthy)
authenticated identifier is supplied and the origin string alone otherwise;
the origin string is the first comma-separated entry of a truthy
`x-forwarded-for` (trimmed), else a truthy `x-real-ip`, else `"unknown"`.
Total functions of the request: no failure, no side effects. -/
theorem getRateLimitKey_C7 (request : HttpRequest) (userId : Option String) :
    (∀ u, userId = some u → u ≠ "" →
      getRateLimitKey request userId = u ++ ":" ++ getClientIP request) ∧
    ((userId = none ∨ userId = some "") →
      getRateLimitKey request userId = getClientIP request) ∧
    (∀ f, request.xForwardedFor = some f → f ≠ "" →
      getClientIP request = ((f.splitOn ",").headD "").trim) ∧
    ((request.xForwardedFor = none ∨ request.xForwardedFor = some "") →
      ∀ r, request.xRealIp = some r → r ≠ "" → getClientIP request = r) ∧
    ((request.xForwardedFor = none ∨ request.xForwardedFor = some "") →
      (request.xRealIp = none ∨ request.xRealIp = some "") →
      getClientIP request = "unknown") := by
  refine ⟨?_, ?_, ?_, ?_, ?_⟩
  · intro u hu hne
    simp [getRateLimitKey, hu, hne]
  · rintro (hu | hu) <;> simp [getRateLimitKey, hu]
  · intro f hf hne
    simp [getClientIP, hf, hne]
  · rintro (hf | hf) r hr hne <;> simp [getClientIP, hf, hr, hne]
  · rintro (hf | hf) (hr | hr) <;> simp [getClientIP, hf, hr]

/-- C10: an empty-string `userId` is falsy, exactly like a missing one: the
key is the origin string alone (no separator), the same counting record as
the unauthenticated case. -/
theorem getRateLimitKey_emptyUser_C10 (request : HttpRequest) :
    getRateLimitKey request (some "") = getClientIP request ∧
    getRateLimitKey request (some "") = getRateLimitKey request none := by
  constructor <;> simp [getRateLimitKey]

/-! ## The expiry sweep (claim C8) -/

/-- The sweep's removal test, unfolded: the retention-pruned timestamps are
empty and the optional block instant is unset, zero (falsy) or past. -/
theorem sweepRemovable_iff (e : RateLimitEntry) (now : Int) :
    sweepRemovable e now = true ↔
      e.timestamps.filter (fun t => decide (now - t < 300000)) = [] ∧
      (e.blocked_until = none ∨
        ∃ b, e.blocked_until = some b ∧ (b = 0 ∨ b < now)) := by
  unfold sweepRemovable
  cases hbu : e.blocked_until with
  | none => simp [List.isEmpty_iff]
  | some b => simp [List.isEmpty_iff, Int.lt_iff_add_one_le]

/-- C8: one sweep run removes an entry exactly when its timestamps are empty
after pruning to the retention window and its `blocked_until` is unset
(or falsy) or already past; every other entry is retained unchanged.
Concretely (60 s read tier): the record of identity `"idle"`, whose one
request was at second 0, is removed by a sweep at second 400, and the next
request at second 401 is allowed and counted as a fresh identity. -/
theorem runSweep_C8 (store : Store) (now : Int) (k : String) (e : RateLimitEntry)
    (hentry : store k = some e) :
    (runSweep store now k = none ↔
      e.timestamps.filter (fun t => decide (now - t < 300000)) = [] ∧
      (e.blocked_until = none ∨
        ∃ b, e.blocked_until = some b ∧ (b = 0 ∨ b < now))) ∧
    (runSweep store now k = none ∨ runSweep store now k = some e) ∧
    ((checkRateLimit "idle" RATE_LIMITS_READ 0 emptyStore).1 = none ∧
     runSweep (checkRateLimit "idle" RATE_LIMITS_READ 0 emptyStore).2 400000
       (rlKey RATE_LIMITS_READ "idle") = none ∧
     (checkRateLimit "idle" RATE_LIMITS_READ 401000
       (runSweep (checkRateLimit "idle" RATE_LIMITS_READ 0 emptyStore).2
         400000)).1 = none ∧
     (checkRateLimit "idle" RATE_LIMITS_READ 401000
       (runSweep (checkRateLimit "idle" RATE_LIMITS_READ 0 emptyStore).2
         400000)).2 (rlKey RATE_LIMITS_READ "idle")
       = some { timestamps := [401000], blocked_until := none }) := by
  refine ⟨?_, ?_, by decide, by decide, by decide, by decide⟩
  · rw [← sweepRemovable_iff]
    unfold runSweep
    rw [hentry]
    by_cases hrem : sweepRemovable e now <;> simp [hrem]
  · unfold runSweep
    rw [hentry]
    by_cases hrem : sweepRemovable e now <;> simp [hrem]

/-- C8 at a concrete input: the `"idle"` record, one request at second 0,
swept at second 400. -/
theorem runSweep_C8_witness :
    runSweep (setStore emptyStore "read:idle"
        { timestamps := [0], blocked_until := none }) 400000 "read:idle"
      = none :=
  ((runSweep_C8 (setStore emptyStore "read:idle"
      { timestamps := [0], blocked_until := none }) 400000 "read:idle"
      { timestamps := [0], blocked_until := none } (by decide)).1).mpr (by decide)

/-! ## Equivalence to a fresh identity after a fully elapsed window (claim C9) -/

theorem isBlockedAt_congr (e1 e2 : RateLimitEntry) (t : Int)
    (h : e1.blocked_until = e2.blocked_until) :
    isBlockedAt e1 t = isBlockedAt e2 t := by
  unfold isBlockedAt
  rw [h]

theorem isBlockedAt_eq_false_of_neverBlocks (e : RateLimitEntry) (n t : Int)
    (h : neverBlocks n e.blocked_until) (ht : n ≤ t) :
    isBlockedAt e t = false := by
  refine isBlockedAt_eq_false e t ?_
  intro b hb
  rw [hb] at h
  rcases h with h0 | hle
  · exact Or.inl h0
  · exact Or.inr (by omega)

/-- One decision step preserves the equivalence and yields equal decisions. -/
theorem stepEntry_equiv (config : RateLimitConfig) (n t : Int)
    (e1 e2 : RateLimitEntry) (heq : entryEquiv n e1 e2) (ht : n ≤ t) :
    (stepEntry config t e1).1 = (stepEntry config t e2).1 ∧
    entryEquiv n (stepEntry config t e1).2 (stepEntry config t e2).2 := by
  obtain ⟨hts, hbu⟩ := heq
  rcases hbu with hbu | ⟨hnb1, hnb2⟩
  · cases hblk : isBlockedAt e1 t with
    | true =>
      have hblk2 : isBlockedAt e2 t = true := by
        rw [← isBlockedAt_congr e1 e2 t hbu]; exact hblk
      simp only [stepEntry, hblk, hblk2, if_true, hbu]
      exact ⟨trivial, hts, Or.inl hbu⟩
    | false =>
      have hblk2 : isBlockedAt e2 t = false := by
        rw [← isBlockedAt_congr e1 e2 t hbu]; exact hblk
      simp only [stepEntry, hblk, hblk2, Bool.false_eq_true, if_false, hts]
      by_cases hlen : config.max ≤ (e2.timestamps.filter
          (fun u => decide (t - u < (config.windowSec : Int) * 1000))).length
      · simp only [if_pos hlen]
        exact ⟨trivial, rfl, Or.inl rfl⟩
      · simp only [if_neg hlen]
        exact ⟨trivial, rfl, Or.inl hbu⟩
  · have hblk1 := isBlockedAt_eq_false_of_neverBlocks e1 n t hnb1 ht
    have hblk2 := isBlockedAt_eq_false_of_neverBlocks e2 n t hnb2 ht
    simp only [stepEntry, hblk1, hblk2, Bool.false_eq_true, if_false, hts]
    by_cases hlen : config.max ≤ (e2.timestamps.filter
        (fun u => decide (t - u < (config.windowSec : Int) * 1000))).length
    · simp only [if_pos hlen]
      exact ⟨trivial, rfl, Or.inl rfl⟩
    · simp only [if_neg hlen]
      exact ⟨trivial, rfl, Or.inr ⟨hnb1, hnb2⟩⟩

/-- Equivalent entries produce identical decision sequences for any list of
call instants `≥ n`. -/
theorem runEntry_equiv (config : RateLimitConfig) (n : Int) :
    ∀ (ts : List Int) (e1 e2 : RateLimitEntry), entryEquiv n e1 e2 →
      (∀ t ∈ ts, n ≤ t) →
      (runEntry config ts e1).1 = (runEntry config ts e2).1 := by
  intro ts
  induction ts with
  | nil => intro e1 e2 _ _; rfl
  | cons t ts ih =>
    intro e1 e2 heq hts
    have hstep := stepEntry_equiv config n t e1 e2 heq (hts t (by simp))
    simp only [runEntry]
    rw [hstep.1, ih _ _ hstep.2 (fun u hu => hts u (by simp [hu]))]

/-- A call sequence through the store restricted to one identity is the same
decision sequence as the entry-level run on that identity's record. -/
theorem runCalls_eq_runEntry (identifier : String) (config : RateLimitConfig) :
    ∀ (ts : List Int) (store : Store),
      (runCalls identifier config ts store).1 =
        (runEntry config ts
          ((store (rlKey config identifier)).getD
            { timestamps := [], blocked_until := none })).1 := by
  intro ts
  induction ts with
  | nil => intro store; rfl
  | cons t ts ih =>
    intro store
    simp only [runCalls, runEntry]
    rw [checkRateLimit_fst, ih]
    rw [checkRateLimit_snd_same]
    rfl

/-- C9: a record whose every timestamp is at least one window old at `now`
and whose block instant is unset or past behaves exactly like a never-seen
key: the call at `now` is allowed in both cases, the count restarts at
`[now]`, and every subsequent call sequence at instants `≥ now` returns the
same decisions as for the fresh identity. -/
theorem checkRateLimit_fresh_equiv_C9 (identifier : String)
    (config : RateLimitConfig) (now : Int) (store1 store2 : Store)
    (e : RateLimitEntry)
    (h1 : store1 (rlKey config identifier) = some e)
    (h2 : store2 (rlKey config identifier) = none)
    (hmax : 0 < config.max)
    (hold : ∀ t ∈ e.timestamps, t + (config.windowSec : Int) * 1000 ≤ now)
    (hblock : e.blocked_until = none ∨
      ∃ b, e.blocked_until = some b ∧ b ≤ now) :
    (checkRateLimit identifier config now store1).1 = none ∧
    (checkRateLimit identifier config now store2).1 = none ∧
    (∃ e', (checkRateLimit identifier config now store1).2 (rlKey config identifier)
        = some e' ∧ e'.timestamps = [now]) ∧
    (∀ ts : List Int, (∀ t ∈ ts, now ≤ t) →
      (runCalls identifier config ts
          (checkRateLimit identifier config now store1).2).1
        = (runCalls identifier config ts
          (checkRateLimit identifier config now store2).2).1) := by
  have hnb1 : isBlockedAt e now = false := by
    refine isBlockedAt_eq_false e now ?_
    intro b hb
    rcases hblock with hb0 | ⟨b', hb', hle⟩
    · rw [hb0] at hb; exact absurd hb (by simp)
    · rw [hb'] at hb
      injection hb with hbb
      exact Or.inr (by omega)
  have hfilter : e.timestamps.filter
      (fun t => decide (now - t < (config.windowSec : Int) * 1000)) = [] := by
    refine List.filter_eq_nil_iff.mpr ?_
    intro t ht
    have := hold t ht
    simp only [decide_eq_true_eq]
    omega
  have hstep1 : stepEntry config now e =
      (none, { timestamps := [now], blocked_until := e.blocked_until }) := by
    rw [stepEntry_allow config now e hnb1 (by rw [hfilter]; simpa using hmax)]
    rw [hfilter]
    rfl
  have hstep2 : stepEntry config now { timestamps := [], blocked_until := none } =
      (none, { timestamps := [now], blocked_until := none }) := by
    rw [stepEntry_allow config now _ (by simp [isBlockedAt]) (by simpa using hmax)]
    rfl
  have hequiv : entryEquiv now
      { timestamps := [now], blocked_until := e.blocked_until }
      { timestamps := [now], blocked_until := none } := by
    refine ⟨rfl, Or.inr ⟨?_, trivial⟩⟩
    rcases hblock with hb0 | ⟨b, hb, hle⟩
    · rw [hb0]; trivial
    · rw [hb]; exact Or.inr hle
  refine ⟨?_, ?_, ?_, ?_⟩
  · rw [checkRateLimit_fst, h1]
    simp only [Option.getD_some]
    rw [hstep1]
  · rw [checkRateLimit_fst, h2]
    simp only [Option.getD_none]
    rw [hstep2]
  · refine ⟨{ timestamps := [now], blocked_until := e.blocked_until }, ?_, rfl⟩
    rw [checkRateLimit_snd_same, h1]
    simp only [Option.getD_some]
    rw [hstep1]
  · intro ts hts
    rw [runCalls_eq_runEntry, runCalls_eq_runEntry,
      checkRateLimit_snd_same, checkRateLimit_snd_same, h1, h2]
    simp only [Option.getD_some, Option.getD_none]
    rw [hstep1, hstep2]
    exact runEntry_equiv config now ts _ _ hequiv hts

/-- C9 at a concrete input: the AI tier at instant 60000, a record whose one
timestamp is exactly one window old and whose block expired at instant
30000, against the same call on an absent key. -/
theorem checkRateLimit_fresh_equiv_C9_witness :
    (checkRateLimit "u1" RATE_LIMITS_AI 60000
        (setStore emptyStore (rlKey RATE_LIMITS_AI "u1")
          { timestamps := [0], blocked_until := some 30000 })).1 = none :=
  (checkRateLimit_fresh_equiv_C9 "u1" RATE_LIMITS_AI 60000
    (setStore emptyStore (rlKey RATE_LIMITS_AI "u1")
      { timestamps := [0], blocked_until := some 30000 })
    emptyStore
    { timestamps := [0], blocked_until := some 30000 }
    (by decide) rfl (by decide) (by decide)
    (Or.inr ⟨30000, rfl, by decide⟩)).1
